import Mathlib

/-!
Verification of the reddit-scraper repository's core logic.

The definitions below are a shallow embedding of:
  * `parse_comment` / the forest-building loops of
    `src/reddit_scraper/scraper.py` (lines 63-100),
  * `count_all` (scraper.py lines 103-107),
  * `count_comments_recursive` (src/reddit_scraper/server.py lines 83-97),
  * `ScrapeRequest.validate_reddit_url` (server.py lines 52-71) and the
    `/scrape` endpoint's control flow (server.py lines 456-514),
  * the post-metadata extraction of `scrape_reddit_post`
    (scraper.py lines 51-60).

Python dynamic values are embedded as a `Json` inductive; Python `dict`s
appear as association lists with distinct keys (key lookup takes the first
match, which coincides with dict semantics on duplicate-free lists).
Python exceptions are embedded as `Except.error` carrying the exception
class name; `None`-or-value results are `Option`.
-/

set_option maxHeartbeats 1000000

namespace RedditScraper

/-- Embedded Python/JSON values. `num` covers the integral numbers the
claims exercise (the source platform also emits floats, which no claim
touches). -/
inductive Json where
  | null
  | bool (b : Bool)
  | num (n : Int)
  | str (s : String)
  | arr (elems : List Json)
  | obj (fields : List (String × Json))

/-- Key lookup in an embedded dict: first matching key wins (dicts hold
distinct keys, so this is Python `d[k]` / `d.get(k)` when the key is
present). -/
def lookupJson : List (String × Json) → String → Option Json
  | [], _ => none
  | (k, v) :: rest, key => if k = key then some v else lookupJson rest key

/-- Python truthiness (`bool(x)`) for embedded values. -/
def Json.isTruthy : Json → Bool
  | .null => false
  | .bool b => b
  | .num n => n != 0
  | .str s => s ≠ ""
  | .arr elems => !elems.isEmpty
  | .obj fields => !fields.isEmpty

mutual
/-- Python `repr` of an embedded value (string escaping inside `repr` is
not modelled; no claim exercises it). -/
def pyRepr : Json → String
  | .null => "None"
  | .bool true => "True"
  | .bool false => "False"
  | .num n => toString n
  | .str s => "\x27" ++ s ++ "\x27"
  | .arr elems => "[" ++ pyReprList elems ++ "]"
  | .obj fields => "\x7b" ++ pyReprFields fields ++ "\x7d"

/-- Comma-separated reprs of list elements. -/
def pyReprList : List Json → String
  | [] => ""
  | [x] => pyRepr x
  | x :: y :: rest => pyRepr x ++ ", " ++ pyReprList (y :: rest)

/-- Comma-separated `'key': value` reprs of dict entries. -/
def pyReprFields : List (String × Json) → String
  | [] => ""
  | [(k, v)] => "\x27" ++ k ++ "\x27: " ++ pyRepr v
  | (k, v) :: e :: rest => "\x27" ++ k ++ "\x27: " ++ pyRepr v ++ ", " ++ pyReprFields (e :: rest)
end

/-- Python `str(x)`, as used inside an f-string. -/
def pyStr (j : Json) : String :=
  match j with
  | .str s => s
  | _ => pyRepr j

/-- One parsed comment (the dict built at scraper.py lines 71-78):
`id`, `author`, `timestamp`, `score`, `text` hold whatever `.get`
returned (Python does not coerce them), `replies` is the recursively
parsed child list. -/
inductive CommentNode where
  | mk (id author timestamp score text : Json) (replies : List CommentNode)

def CommentNode.id : CommentNode → Json
  | .mk i _ _ _ _ _ => i

def CommentNode.author : CommentNode → Json
  | .mk _ a _ _ _ _ => a

def CommentNode.timestamp : CommentNode → Json
  | .mk _ _ t _ _ _ => t

def CommentNode.score : CommentNode → Json
  | .mk _ _ _ s _ _ => s

def CommentNode.text : CommentNode → Json
  | .mk _ _ _ _ t _ => t

def CommentNode.replies : CommentNode → List CommentNode
  | .mk _ _ _ _ _ rs => rs

theorem lookupJson_sizeOf {fs : List (String × Json)} {k : String} {v : Json}
    (h : lookupJson fs k = some v) : sizeOf v < sizeOf fs := by
  induction fs with
  | nil => simp [lookupJson] at h
  | cons p rest ih =>
    obtain ⟨k', v'⟩ := p
    simp only [lookupJson] at h
    split at h
    · cases h
      simp
      omega
    · have := ih h
      simp
      omega

/-- The flair annotation of scraper.py lines 80-82:
`if comment_data.get('author_flair_text'): comment['author'] = f"{...} ({...})"`. -/
def applyFlair (d : List (String × Json)) (author : Json) : Json :=
  match lookupJson d "author_flair_text" with
  | some f => if f.isTruthy then .str (pyStr author ++ " (" ++ pyStr f ++ ")") else author
  | none => author

/-- scraper.py lines 85-88: the list of raw reply entries the loop of
lines 88-91 iterates over.
`if 'replies' in comment_data and comment_data['replies']:` then
`if isinstance(comment_data['replies'], dict):` then
`comment_data['replies'].get('data', {}).get('children', [])`.
A falsy or non-dict container is skipped and the `.get` defaults give an
empty iteration, so those paths yield `[]`; iterating a non-empty string
or non-empty dict `children` value feeds its first character/key (a
string) into `parse_comment`, whose subscript raises `TypeError`, and a
non-iterable raises `TypeError` at the `for` — both inlined here as the
error they raise; a non-dict `data` value makes `.get('children', ...)`
raise `AttributeError`. -/
def replies_entries (d : List (String × Json)) : Except String (List Json) :=
  match lookupJson d "replies" with
  | none => .ok []
  | some r =>
    if r.isTruthy then
      match r with
      | .obj rf =>
        match lookupJson rf "data" with
        | none => .ok []
        | some rd =>
          match rd with
          | .obj rdf =>
            match lookupJson rdf "children" with
            | none => .ok []
            | some ch =>
              match ch with
              | .arr elems => .ok elems
              | .str s => if s = "" then .ok [] else .error "TypeError"
              | .obj chf => if chf.isEmpty then .ok [] else .error "TypeError"
              | _ => .error "TypeError"
          | _ => .error "AttributeError"
      | _ => .ok []
    else .ok []

theorem list_sizeOf_pos {α} [SizeOf α] (l : List α) : 1 ≤ sizeOf l := by
  cases l <;> simp <;> omega

theorem replies_entries_arr {d : List (String × Json)} {elems : List Json}
    (h : replies_entries d = .ok elems) :
    elems = [] ∨ ∃ rf rdf, lookupJson d "replies" = some (.obj rf) ∧
      lookupJson rf "data" = some (.obj rdf) ∧
      lookupJson rdf "children" = some (.arr elems) := by
  unfold replies_entries at h
  repeat' split at h
  all_goals first
    | (injection h with h; subst h; exact Or.inl rfl)
    | (injection h with h; subst h;
       exact Or.inr ⟨_, _, by assumption, by assumption, by assumption⟩)
    | cases h

theorem replies_entries_sizeOf {d : List (String × Json)} {elems : List Json}
    (h : replies_entries d = .ok elems) : sizeOf elems ≤ sizeOf d := by
  rcases replies_entries_arr h with h1 | ⟨rf, rdf, h1, h2, h3⟩
  · subst h1
    have := list_sizeOf_pos d
    simp
    omega
  · have s1 := lookupJson_sizeOf h1
    have s2 := lookupJson_sizeOf h2
    have s3 := lookupJson_sizeOf h3
    simp at s1 s2 s3
    omega

mutual
/-- scraper.py lines 63-93 (`parse_comment`). `Except.error` holds the
Python exception class raised on that path; `.ok none` is Python `None`.
The field values are the `comment_data.get(...)` results of lines 71-78,
`author` after the flair annotation of lines 80-82, and `replies` the
list accumulated by the loop of lines 84-91. -/
def parse_comment (comment_obj : Json) : Except String (Option CommentNode) :=
  match comment_obj with
  | .obj fields =>
    match lookupJson fields "kind" with
    | none => .error "KeyError"
    | some kindv =>
      match kindv with
      | .str "t1" =>
        match h : lookupJson fields "data" with
        | none => .error "KeyError"
        | some comment_data =>
          match comment_data with
          | .obj d =>
            (parse_replies d).map (fun rs =>
              some (CommentNode.mk
                ((lookupJson d "id").getD (.str ""))
                (applyFlair d ((lookupJson d "author").getD (.str "[deleted]")))
                ((lookupJson d "created_utc").getD (.num 0))
                ((lookupJson d "score").getD (.num 0))
                ((lookupJson d "body").getD (.str ""))
                rs))
          | _ => .error "AttributeError"
      | _ => .ok none
  | _ => .error "TypeError"
termination_by sizeOf comment_obj
decreasing_by
  have hd := lookupJson_sizeOf h
  simp at hd ⊢
  omega

/-- scraper.py lines 85-91: the reply-container handling inside
`parse_comment`, for a payload dict `d` — the loop over the entry list
produced by [`replies_entries`]. -/
def parse_replies (d : List (String × Json)) : Except String (List CommentNode) :=
  match h : replies_entries d with
  | .error e => .error e
  | .ok elems => parse_children elems
termination_by sizeOf d + 1
decreasing_by
  have := replies_entries_sizeOf h
  omega

/-- The filtering loop shape shared by scraper.py lines 88-91 (nested
replies) and lines 96-100 (top-level listing): parse each entry in
source order, keep the non-`None` results in order, propagate the first
exception. -/
def parse_children (objs : List Json) : Except String (List CommentNode) :=
  match objs with
  | [] => .ok []
  | e :: rest =>
    match parse_comment e with
    | .error err => .error err
    | .ok c? =>
      match parse_children rest with
      | .error err => .error err
      | .ok cs => .ok (match c? with | some c => c :: cs | none => cs)
termination_by sizeOf objs
decreasing_by
  all_goals simp
  omega
end

/-- scraper.py lines 103-107 (`count_all`):
`total = len(comments)` then `total += count_all(comment.get('replies', []))`
for each comment; rendered as the equivalent cons recursion. -/
def count_all : List CommentNode → Nat
  | [] => 0
  | .mk _ _ _ _ _ rs :: rest => 1 + count_all rs + count_all rest
termination_by l => sizeOf l
decreasing_by
  all_goals simp
  all_goals omega

/-- State-passing rendering of `count_all`: the forest is threaded as the
mutable state the Python function could touch; every step hands back the
nodes it read, so the returned state exhibits exactly what the traversal
leaves behind. -/
def count_all_st : List CommentNode → Nat × List CommentNode
  | [] => (0, [])
  | .mk i a t sc b rs :: rest =>
    let pr := count_all_st rs
    let pq := count_all_st rest
    (1 + pr.1 + pq.1, .mk i a t sc b pr.2 :: pq.2)
termination_by l => sizeOf l
decreasing_by
  all_goals simp
  all_goals omega

/-- The `stats` dict of server.py line 86 / 494:
`{'max_depth': 0, 'by_depth': {}}`, with `by_depth` an embedded dict
from depth to count. -/
structure Stats where
  max_depth : Nat
  by_depth : List (Nat × Nat)

/-- Python `by_depth.get(depth, 0)` (server.py line 92). -/
def dictGetD : List (Nat × Nat) → Nat → Nat → Nat
  | [], _, dflt => dflt
  | (k, v) :: rest, key, dflt => if k = key then v else dictGetD rest key dflt

/-- Python `by_depth[depth] = v` (server.py line 92): overwrite the
existing entry, else append (dict insertion order). -/
def dictSet : List (Nat × Nat) → Nat → Nat → List (Nat × Nat)
  | [], key, v => [(key, v)]
  | (k, w) :: rest, key, v => if k = key then (key, v) :: rest else (k, w) :: dictSet rest key v

/-- The fresh stats dict of server.py lines 85-86 and line 494. -/
def freshStats : Stats := ⟨0, []⟩

/-- server.py lines 83-97 (`count_comments_recursive`): for each comment,
bump the total, update `max_depth` and `by_depth[depth]`, and recurse
into `comment['replies']` when that list is truthy (non-empty). The
mutated `stats` dict is threaded explicitly and returned alongside the
total. -/
def count_comments_recursive : List CommentNode → Nat → Stats → Nat × Stats
  | [], _, stats => (0, stats)
  | .mk _ _ _ _ _ rs :: rest, depth, stats =>
    let stats1 : Stats :=
      ⟨max stats.max_depth depth,
       dictSet stats.by_depth depth (dictGetD stats.by_depth depth 0 + 1)⟩
    if rs.isEmpty then
      let pq := count_comments_recursive rest depth stats1
      (1 + pq.1, pq.2)
    else
      let pr := count_comments_recursive rs (depth + 1) stats1
      let pq := count_comments_recursive rest depth pr.2
      (1 + pr.1 + pq.1, pq.2)
termination_by l _ _ => sizeOf l
decreasing_by
  all_goals simp
  all_goals omega

/-- The `post_data` dict of scraper.py lines 51-60, with one `Json` slot
per `.get` result. -/
structure Post where
  title : Json
  author : Json
  subreddit : Json
  timestamp : Json
  score : Json
  url : String
  num_comments : Json
  selftext : Json

/-- scraper.py lines 51-60: extract the post metadata from the raw post
payload dict, applying the per-field defaults. -/
def build_post (post_data_raw : List (String × Json)) (url : String) : Post :=
  { title := (lookupJson post_data_raw "title").getD (.str "Unknown")
    author := (lookupJson post_data_raw "author").getD (.str "Unknown")
    subreddit := (lookupJson post_data_raw "subreddit").getD (.str "Unknown")
    timestamp := (lookupJson post_data_raw "created_utc").getD (.num 0)
    score := (lookupJson post_data_raw "score").getD (.num 0)
    url := url
    num_comments := (lookupJson post_data_raw "num_comments").getD (.num 0)
    selftext := (lookupJson post_data_raw "selftext").getD (.str "") }

/-- Python's `needle in haystack` on strings: `needle` occurs as a
contiguous substring (the empty needle always occurs). -/
def isInfixList (n : List Char) : List Char → Bool
  | [] => n.isEmpty
  | c :: t => n.isPrefixOf (c :: t) || isInfixList n t

/-- Python's `needle in haystack` on strings. -/
def strIn (needle haystack : String) : Bool :=
  isInfixList needle.toList haystack.toList

/-- Python `s.replace(pat, rep)` over character lists: replace every
non-overlapping occurrence left to right (for a non-empty `pat`, which is
all the source uses). -/
def replaceList (pat rep : List Char) : List Char → List Char
  | [] => []
  | c :: rest =>
    if h : pat ≠ [] ∧ pat.isPrefixOf (c :: rest) then
      rep ++ replaceList pat rep ((c :: rest).drop pat.length)
    else
      c :: replaceList pat rep rest
termination_by s => s.length
decreasing_by
  · have hlen := (List.isPrefixOf_iff_prefix.mp h.2).length_le
    have hpos := List.length_pos.mpr h.1
    simp [List.length_drop] at *
    omega
  · simp

/-- Python `s.replace(pat, rep)`. -/
def py_replace (s pat rep : String) : String :=
  ⟨replaceList pat.toList rep.toList s.toList⟩

/-- server.py lines 56-62: the host normalization performed by
`validate_reddit_url` before the pattern check (`www.reddit.com` →
`reddit.com` → `old.reddit.com`, only when `reddit.com` occurs and
`old.reddit.com` does not already). -/
def normalize_url (v : String) : String :=
  if strIn "reddit.com" v then
    let v1 := py_replace v "www.reddit.com" "reddit.com"
    if strIn "old.reddit.com" v1 then v1
    else py_replace v1 "reddit.com" "old.reddit.com"
  else v

/-- `\w` of the validation regex, over the ASCII range the claims
exercise: letters, digits and underscore. -/
def isWordChar (c : Char) : Bool :=
  c.isAlphanum || c = '_'

/-- Strip a literal off the front of the character stream, or fail. -/
def stripLit (lit : String) (cs : List Char) : Option (List Char) :=
  if lit.toList.isPrefixOf cs then some (cs.drop lit.toList.length) else none

/-- server.py line 65: `re.match(r'https?://old\.reddit\.com/r/\w+/comments/', v)`.
`re.match` anchors at the start; since `\w` cannot match `/`, the greedy
`\w+` needs no backtracking: it is one word character, the maximal word
run, then the literal `/comments/`. -/
def reddit_url_pattern_match (v : String) : Bool :=
  match stripLit "http" v.toList with
  | none => false
  | some cs1 =>
    let cs2 := match stripLit "s" cs1 with
      | some r => r
      | none => cs1
    match stripLit "://old.reddit.com/r/" cs2 with
    | none => false
    | some cs3 =>
      match cs3 with
      | [] => false
      | c :: rest =>
        isWordChar c && "/comments/".toList.isPrefixOf (rest.dropWhile isWordChar)

/-- server.py lines 52-71 (`validate_reddit_url`): normalize the host,
then reject with `ValueError` (pydantic turns it into a client-side
validation error) unless the pattern matches; on success return the
normalized URL, which pydantic stores as `request.url`. -/
def validate_reddit_url (v : String) : Except String String :=
  let v1 := normalize_url v
  if reddit_url_pattern_match v1 then .ok v1
  else .error "Invalid Reddit URL. Expected format: https://reddit.com/r/subreddit/comments/post_id/..."

/-- The data of a successful `/scrape` response (server.py lines 497-508). -/
structure ScrapeSuccess where
  url : String
  post : Post
  comments : List CommentNode
  total_comments : Nat
  top_level_comments : Nat
  max_depth : Nat
  comments_by_depth : List (Nat × Nat)

/-- Outcome of one `/scrape` request: pydantic validation failure (HTTP
422, raised before the endpoint body runs), endpoint success, or the
HTTP 500 of server.py lines 510-514. -/
inductive ServiceResponse where
  | validationError (msg : String)
  | success (data : ScrapeSuccess)
  | serverError (msg : String)

/-- server.py lines 456-514 (`/scrape`): pydantic runs
`validate_reddit_url` while parsing the request body; only if it accepts
is the scraper invoked (as a subprocess, abstracted here as the `scraper`
argument) on the validated URL, after which the stats of lines 493-507
are computed. A scraper failure becomes the HTTP 500 of lines 510-514. -/
def scrape_endpoint (scraper : String → Except String (Post × List CommentNode))
    (url : String) : ServiceResponse :=
  match validate_reddit_url url with
  | .error e => .validationError e
  | .ok v =>
    match scraper v with
    | .error e => .serverError ("Failed to scrape Reddit post: " ++ e)
    | .ok (post, comments) =>
      let p := count_comments_recursive comments 0 freshStats
      .success ⟨v, post, comments, p.1, comments.length, p.2.max_depth, p.2.by_depth⟩

/-- Python `isinstance(x, dict)`. -/
def Json.isObj : Json → Bool
  | .obj _ => true
  | _ => false

theorem parse_comment_obj_eq {fields d : List (String × Json)}
    (hk : lookupJson fields "kind" = some (.str "t1"))
    (hd : lookupJson fields "data" = some (.obj d)) :
    parse_comment (.obj fields) =
      (parse_replies d).map (fun rs =>
        some (CommentNode.mk
          ((lookupJson d "id").getD (.str ""))
          (applyFlair d ((lookupJson d "author").getD (.str "[deleted]")))
          ((lookupJson d "created_utc").getD (.num 0))
          ((lookupJson d "score").getD (.num 0))
          ((lookupJson d "body").getD (.str ""))
          rs)) := by
  rw [parse_comment.eq_def]
  simp only [hk]
  split
  · simp_all
  · rename_i cd hcd
    rw [hd] at hcd
    injection hcd with hcd
    subst hcd
    rfl

theorem replies_entries_sentinel {d : List (String × Json)} {r : Json}
    (hr : lookupJson d "replies" = some r)
    (hshape : r.isObj = false ∨ r = .obj []) :
    replies_entries d = .ok [] := by
  unfold replies_entries
  rw [hr]
  rcases hshape with h | h
  · cases r <;> first | (split <;> rfl) | simp_all [Json.isObj]
  · subst h
    simp [Json.isTruthy]

theorem parse_children_nil : parse_children [] = .ok [] := by
  rw [parse_children.eq_def]

theorem parse_replies_eq_entries {d : List (String × Json)} {elems : List Json}
    (h : replies_entries d = .ok elems) :
    parse_replies d = parse_children elems := by
  rw [parse_replies.eq_def]
  split
  · rename_i e he
    rw [h] at he
    cases he
  · rename_i elems' he
    rw [h] at he
    injection he with he
    subst he
    rfl

theorem parse_replies_sentinel {d : List (String × Json)} {r : Json}
    (hr : lookupJson d "replies" = some r)
    (hshape : r.isObj = false ∨ r = .obj []) :
    parse_replies d = .ok [] := by
  rw [parse_replies_eq_entries (replies_entries_sentinel hr hshape), parse_children_nil]

/-- C3: an entry whose kind tag is present but is not the comment tag
`"t1"` yields no node and no error — `parse_comment` returns `None` —
whatever the rest of the entry looks like. -/
theorem claim_C3_non_comment_kind_no_node {fields : List (String × Json)} {k : Json}
    (hk : lookupJson fields "kind" = some k) (hne : k ≠ Json.str "t1") :
    parse_comment (.obj fields) = .ok none := by
  rw [parse_comment.eq_def]
  simp only [hk]

/-- C3 witness: a `"more"` continuation entry with a malformed payload is
silently skipped. -/
theorem claim_C3_witness :
    parse_comment (.obj [("kind", .str "more"), ("data", .num 7)]) = .ok none :=
  claim_C3_non_comment_kind_no_node rfl (by simp)

/-- C2: a comment-kind entry whose `replies` field is present but is a
non-dict sentinel (boolean, empty string, ...) or an empty dict parses
without error to a node with an empty child list. -/
theorem claim_C2_sentinel_replies_empty_children {fields d : List (String × Json)} {r : Json}
    (hk : lookupJson fields "kind" = some (.str "t1"))
    (hd : lookupJson fields "data" = some (.obj d))
    (hr : lookupJson d "replies" = some r)
    (hshape : r.isObj = false ∨ r = .obj []) :
    ∃ node, parse_comment (.obj fields) = .ok (some node) ∧ node.replies = [] := by
  have h1 := parse_comment_obj_eq hk hd
  rw [parse_replies_sentinel hr hshape] at h1
  exact ⟨_, h1, rfl⟩

/-- C2 witness: `replies: false` (the platform's "no replies" sentinel)
yields a node with zero children. -/
theorem claim_C2_witness :
    ∃ node,
      parse_comment (.obj [("kind", .str "t1"), ("data", .obj [("replies", .bool false)])])
        = .ok (some node) ∧ node.replies = [] :=
  claim_C2_sentinel_replies_empty_children rfl rfl rfl (Or.inl rfl)

theorem parse_comment_ok_node {fields d : List (String × Json)} {node : CommentNode}
    (hk : lookupJson fields "kind" = some (.str "t1"))
    (hd : lookupJson fields "data" = some (.obj d))
    (hp : parse_comment (.obj fields) = .ok (some node)) :
    ∃ rs, parse_replies d = .ok rs ∧
      node = CommentNode.mk
        ((lookupJson d "id").getD (.str ""))
        (applyFlair d ((lookupJson d "author").getD (.str "[deleted]")))
        ((lookupJson d "created_utc").getD (.num 0))
        ((lookupJson d "score").getD (.num 0))
        ((lookupJson d "body").getD (.str ""))
        rs := by
  rw [parse_comment_obj_eq hk hd] at hp
  cases hrs : parse_replies d with
  | error e => rw [hrs] at hp; simp [Except.map] at hp
  | ok rs =>
    rw [hrs] at hp
    simp only [Except.map, Except.ok.injEq, Option.some.injEq] at hp
    exact ⟨rs, rfl, hp.symm⟩

/-- C4: on a successfully parsed comment-kind entry, a non-empty flair
text makes the node's author `"<author> (<flair>)"` — with `<author>`
the payload author or the `"[deleted]"` default, so a deleted author is
annotated too — while an absent or empty flair leaves the author
untouched. -/
theorem claim_C4_flair_author_suffix {fields d : List (String × Json)} {node : CommentNode}
    (hp : parse_comment (.obj fields) = .ok (some node))
    (hk : lookupJson fields "kind" = some (.str "t1"))
    (hd : lookupJson fields "data" = some (.obj d)) :
    (∀ f : String, lookupJson d "author_flair_text" = some (.str f) → f ≠ "" →
      node.author = .str (pyStr ((lookupJson d "author").getD (.str "[deleted]")) ++ " (" ++ f ++ ")")) ∧
    ((lookupJson d "author_flair_text" = none ∨ lookupJson d "author_flair_text" = some (.str "")) →
      node.author = (lookupJson d "author").getD (.str "[deleted]")) := by
  obtain ⟨rs, _, hnode⟩ := parse_comment_ok_node hk hd hp
  subst hnode
  constructor
  · intro f hf hfne
    show applyFlair d _ = _
    rw [applyFlair, hf]
    simp [Json.isTruthy, hfne, pyStr]
  · intro hflair
    show applyFlair d _ = _
    rcases hflair with h | h <;> rw [applyFlair, h]
    simp [Json.isTruthy]

/-- C4 witness: a flaired, author-less payload produces the annotated
deleted placeholder `"[deleted] (Mod)"`. -/
theorem claim_C4_witness :
    parse_comment (.obj [("kind", .str "t1"), ("data", .obj [("author_flair_text", .str "Mod")])])
      = .ok (some (CommentNode.mk (Json.str "") (Json.str "[deleted] (Mod)")
          (Json.num 0) (Json.num 0) (Json.str "") [])) ∧
    (CommentNode.mk (Json.str "") (Json.str "[deleted] (Mod)")
        (Json.num 0) (Json.num 0) (Json.str "") []).author
      = Json.str (pyStr ((lookupJson [("author_flair_text", Json.str "Mod")] "author").getD
          (Json.str "[deleted]")) ++ " (" ++ "Mod" ++ ")") := by
  have hk : lookupJson [("kind", Json.str "t1"),
      ("data", Json.obj [("author_flair_text", Json.str "Mod")])] "kind"
      = some (Json.str "t1") := rfl
  have hd : lookupJson [("kind", Json.str "t1"),
      ("data", Json.obj [("author_flair_text", Json.str "Mod")])] "data"
      = some (Json.obj [("author_flair_text", Json.str "Mod")]) := rfl
  have hp : parse_comment (.obj [("kind", .str "t1"), ("data", .obj [("author_flair_text", .str "Mod")])])
      = .ok (some (CommentNode.mk (Json.str "") (Json.str "[deleted] (Mod)")
          (Json.num 0) (Json.num 0) (Json.str "") [])) := by
    have hre : replies_entries [("author_flair_text", Json.str "Mod")] = .ok [] := rfl
    rw [parse_comment_obj_eq hk hd, parse_replies_eq_entries hre, parse_children_nil]
    simp [lookupJson, applyFlair, Json.isTruthy, pyStr, Except.map]
  exact ⟨hp, (claim_C4_flair_author_suffix hp rfl rfl).1 "Mod" rfl (by decide)⟩

/-- C5: absent payload fields become the per-field defaults, never a
missing value: `"Unknown"` author for the post, `"[deleted]"` author for
a comment, `0` timestamps and scores, empty string for the body text. -/
theorem claim_C5_missing_field_defaults {raw : List (String × Json)} {u : String}
    {fields d : List (String × Json)} {node : CommentNode} :
    (lookupJson raw "author" = none → (build_post raw u).author = .str "Unknown") ∧
    (lookupJson raw "created_utc" = none → (build_post raw u).timestamp = .num 0) ∧
    (lookupJson raw "score" = none → (build_post raw u).score = .num 0) ∧
    (lookupJson raw "selftext" = none → (build_post raw u).selftext = .str "") ∧
    (parse_comment (.obj fields) = .ok (some node) →
     lookupJson fields "kind" = some (.str "t1") →
     lookupJson fields "data" = some (.obj d) →
     (lookupJson d "author" = none → lookupJson d "author_flair_text" = none →
        node.author = .str "[deleted]") ∧
     (lookupJson d "created_utc" = none → node.timestamp = .num 0) ∧
     (lookupJson d "score" = none → node.score = .num 0) ∧
     (lookupJson d "body" = none → node.text = .str "")) := by
  refine ⟨fun h => by simp [build_post, h], fun h => by simp [build_post, h],
          fun h => by simp [build_post, h], fun h => by simp [build_post, h],
          fun hp hk hd => ?_⟩
  obtain ⟨rs, _, hnode⟩ := parse_comment_ok_node hk hd hp
  subst hnode
  refine ⟨fun ha hf => ?_, fun h => ?_, fun h => ?_, fun h => ?_⟩
  · show applyFlair d _ = _
    rw [applyFlair, hf, ha]
    rfl
  · show Option.getD _ _ = _
    rw [h]
    rfl
  · show Option.getD _ _ = _
    rw [h]
    rfl
  · show Option.getD _ _ = _
    rw [h]
    rfl

/-- C5 witness: an empty post payload and an empty comment payload take
all the defaults. -/
theorem claim_C5_witness :
    (build_post [] "u").author = .str "Unknown" ∧
    (build_post [] "u").timestamp = .num 0 ∧
    (build_post [] "u").score = .num 0 ∧
    (build_post [] "u").selftext = .str "" ∧
    parse_comment (.obj [("kind", .str "t1"), ("data", .obj [])])
      = .ok (some (CommentNode.mk (Json.str "") (Json.str "[deleted]")
          (Json.num 0) (Json.num 0) (Json.str "") [])) ∧
    (CommentNode.mk (Json.str "") (Json.str "[deleted]")
        (Json.num 0) (Json.num 0) (Json.str "") []).author = Json.str "[deleted]" := by
  have hk : lookupJson [("kind", Json.str "t1"), ("data", Json.obj [])] "kind"
      = some (Json.str "t1") := rfl
  have hd : lookupJson [("kind", Json.str "t1"), ("data", Json.obj [])] "data"
      = some (Json.obj []) := rfl
  have hp : parse_comment (.obj [("kind", .str "t1"), ("data", .obj [])])
      = .ok (some (CommentNode.mk (Json.str "") (Json.str "[deleted]")
          (Json.num 0) (Json.num 0) (Json.str "") [])) := by
    have hre : replies_entries [] = .ok [] := rfl
    rw [parse_comment_obj_eq hk hd, parse_replies_eq_entries hre, parse_children_nil]
    simp [lookupJson, applyFlair, Except.map]
  have h := @claim_C5_missing_field_defaults [] "u"
    [("kind", .str "t1"), ("data", .obj [])] []
    (CommentNode.mk (Json.str "") (Json.str "[deleted]")
      (Json.num 0) (Json.num 0) (Json.str "") [])
  exact ⟨h.1 rfl, h.2.1 rfl, h.2.2.1 rfl, h.2.2.2.1 rfl, hp,
        (h.2.2.2.2 hp rfl rfl).1 rfl rfl⟩

theorem parse_children_filters {entries : List Json} {opts : List (Option CommentNode)}
    (h : entries.map parse_comment = opts.map Except.ok) :
    parse_children entries = .ok opts.reduceOption := by
  induction entries generalizing opts with
  | nil =>
    cases opts with
    | nil => rw [parse_children.eq_def]; rfl
    | cons o os => simp at h
  | cons e rest ih =>
    cases opts with
    | nil => simp at h
    | cons o os =>
      simp only [List.map_cons, List.cons.injEq] at h
      rw [parse_children.eq_def]
      simp only [h.1, ih h.2]
      cases o <;> simp [List.reduceOption]

theorem replies_entries_of_chain {d rf rdf : List (String × Json)} {elems : List Json}
    (hr : lookupJson d "replies" = some (.obj rf))
    (h2 : lookupJson rf "data" = some (.obj rdf))
    (h3 : lookupJson rdf "children" = some (.arr elems)) :
    replies_entries d = .ok elems := by
  have hne : rf ≠ [] := by
    intro hnil
    subst hnil
    simp [lookupJson] at h2
  have htruthy : (Json.obj rf).isTruthy = true := by
    cases rf with
    | nil => exact absurd rfl hne
    | cons a b => simp [Json.isTruthy]
  unfold replies_entries
  rw [hr]
  simp only [htruthy, if_true, h2, h3]

/-- C6: the forest builder keeps exactly the non-`None` per-entry parse
results, in source order — at the top level (`parse_children` over the
listing) and, on any successfully parsed node, for the nested reply
entries that populate its children. -/
theorem claim_C6_forest_keeps_non_null_in_order {entries : List Json}
    {opts : List (Option CommentNode)}
    {fields d rf rdf : List (String × Json)} {elems : List Json}
    {node : CommentNode} {opts2 : List (Option CommentNode)} :
    (entries.map parse_comment = opts.map Except.ok →
      parse_children entries = .ok opts.reduceOption) ∧
    (parse_comment (.obj fields) = .ok (some node) →
     lookupJson fields "kind" = some (.str "t1") →
     lookupJson fields "data" = some (.obj d) →
     lookupJson d "replies" = some (.obj rf) →
     lookupJson rf "data" = some (.obj rdf) →
     lookupJson rdf "children" = some (.arr elems) →
     elems.map parse_comment = opts2.map Except.ok →
     node.replies = opts2.reduceOption) := by
  constructor
  · exact parse_children_filters
  · intro hp hk hd hr h2 h3 hm
    obtain ⟨rs, hrs, hnode⟩ := parse_comment_ok_node hk hd hp
    subst hnode
    show rs = _
    have hch : parse_children elems = .ok rs :=
      (parse_replies_eq_entries (replies_entries_of_chain hr h2 h3)).symm.trans hrs
    rw [parse_children_filters hm] at hch
    injection hch with hch
    exact hch.symm

/-- C6 witness: a two-entry listing (one comment, one `"more"`
placeholder) keeps exactly the comment, and a comment whose only nested
reply entry is a `"more"` placeholder gets zero children. -/
theorem claim_C6_witness :
    parse_children [.obj [("kind", .str "t1"), ("data", .obj [])], .obj [("kind", .str "more")]]
      = .ok ([some (CommentNode.mk (Json.str "") (Json.str "[deleted]")
          (Json.num 0) (Json.num 0) (Json.str "") []), none].reduceOption) ∧
    (CommentNode.mk (Json.str "") (Json.str "[deleted]") (Json.num 0) (Json.num 0) (Json.str "")
        []).replies
      = ([none] : List (Option CommentNode)).reduceOption := by
  have hmore : parse_comment (.obj [("kind", Json.str "more")]) = .ok none := by
    rw [parse_comment.eq_def]
    rfl
  have hk : lookupJson [("kind", Json.str "t1"), ("data", Json.obj [])] "kind"
      = some (Json.str "t1") := rfl
  have hd : lookupJson [("kind", Json.str "t1"), ("data", Json.obj [])] "data"
      = some (Json.obj []) := rfl
  have hre : replies_entries ([] : List (String × Json)) = .ok [] := rfl
  have ht1 : parse_comment (.obj [("kind", .str "t1"), ("data", .obj [])])
      = .ok (some (CommentNode.mk (Json.str "") (Json.str "[deleted]")
          (Json.num 0) (Json.num 0) (Json.str "") [])) := by
    rw [parse_comment_obj_eq hk hd, parse_replies_eq_entries hre, parse_children_nil]
    simp [lookupJson, applyFlair, Except.map]
  have hchild : parse_comment (.obj [("kind", .str "t1"),
      ("data", .obj [("replies", .obj [("data", .obj [("children",
        .arr [.obj [("kind", .str "more")]])])])])])
      = .ok (some (CommentNode.mk (Json.str "") (Json.str "[deleted]")
          (Json.num 0) (Json.num 0) (Json.str "") [])) := by
    have hk2 : lookupJson [("kind", Json.str "t1"), ("data", Json.obj [("replies",
        Json.obj [("data", Json.obj [("children",
          Json.arr [Json.obj [("kind", Json.str "more")]])])])])] "kind"
        = some (Json.str "t1") := rfl
    have hd2 : lookupJson [("kind", Json.str "t1"), ("data", Json.obj [("replies",
        Json.obj [("data", Json.obj [("children",
          Json.arr [Json.obj [("kind", Json.str "more")]])])])])] "data"
        = some (Json.obj [("replies", Json.obj [("data", Json.obj [("children",
          Json.arr [Json.obj [("kind", Json.str "more")]])])])]) := rfl
    have hre2 : replies_entries [("replies", Json.obj [("data", Json.obj [("children",
        Json.arr [Json.obj [("kind", Json.str "more")]])])])]
        = .ok [Json.obj [("kind", Json.str "more")]] := rfl
    rw [parse_comment_obj_eq hk2 hd2, parse_replies_eq_entries hre2,
        parse_children.eq_def]
    simp only [hmore, parse_children_nil]
    simp [lookupJson, applyFlair, Except.map]
  refine ⟨?_, ?_⟩
  · have h1 := (@claim_C6_forest_keeps_non_null_in_order
      [.obj [("kind", .str "t1"), ("data", .obj [])], .obj [("kind", .str "more")]]
      [some (CommentNode.mk (Json.str "") (Json.str "[deleted]")
          (Json.num 0) (Json.num 0) (Json.str "") []), none]
      [] [] [] [] [] (CommentNode.mk (Json.str "") (Json.str "[deleted]")
          (Json.num 0) (Json.num 0) (Json.str "") []) []).1
    exact h1 (by rw [List.map_cons, List.map_cons, List.map_nil, ht1, hmore]; rfl)
  · have h2 := (@claim_C6_forest_keeps_non_null_in_order [] []
      [("kind", Json.str "t1"), ("data", Json.obj [("replies", Json.obj [("data",
        Json.obj [("children", Json.arr [Json.obj [("kind", Json.str "more")]])])])])]
      [("replies", Json.obj [("data", Json.obj [("children",
        Json.arr [Json.obj [("kind", Json.str "more")]])])])]
      [("data", Json.obj [("children", Json.arr [Json.obj [("kind", Json.str "more")]])])]
      [("children", Json.arr [Json.obj [("kind", Json.str "more")]])]
      [Json.obj [("kind", Json.str "more")]]
      (CommentNode.mk (Json.str "") (Json.str "[deleted]")
          (Json.num 0) (Json.num 0) (Json.str "") [])
      [none]).2
    exact h2 hchild rfl rfl rfl rfl rfl
      (by rw [List.map_cons, List.map_nil, hmore]; rfl)


theorem count_rec_fst : ∀ (F : List CommentNode) (d : Nat) (s : Stats),
    (count_comments_recursive F d s).1 = count_all F
  | [], _, _ => by simp [count_comments_recursive, count_all]
  | .mk i a t sc b rs :: rest, d, s => by
    have ih1 := count_rec_fst rs (d + 1)
      ⟨max s.max_depth d, dictSet s.by_depth d (dictGetD s.by_depth d 0 + 1)⟩
    have ih2 := count_rec_fst rest d
      ⟨max s.max_depth d, dictSet s.by_depth d (dictGetD s.by_depth d 0 + 1)⟩
    have ih3 := count_rec_fst rest d
      (count_comments_recursive rs (d + 1)
        ⟨max s.max_depth d, dictSet s.by_depth d (dictGetD s.by_depth d 0 + 1)⟩).2
    by_cases hrs : rs.isEmpty
    · have hnil : rs = [] := by simpa using hrs
      subst hnil
      simp [count_comments_recursive, count_all] at ih2 ⊢
      omega
    · simp [count_comments_recursive, count_all, hrs]
      omega
termination_by F _ _ => sizeOf F
decreasing_by
  all_goals simp
  all_goals omega

/-- C1: for every forest, the total returned by the server's
depth-statistics traversal (`count_comments_recursive` from fresh stats)
equals the scraper's `count_all`. -/
theorem claim_C1_stats_total_eq_count_all (F : List CommentNode) :
    (count_comments_recursive F 0 freshStats).1 = count_all F :=
  count_rec_fst F 0 freshStats

/-- C9: `count_all`, rendered with its input threaded as explicit state,
returns the `count_all` total and hands the forest back unchanged — the
traversal only reads, never mutates, and its type admits no other
effect. -/
theorem claim_C9_count_all_pure : ∀ F : List CommentNode, count_all_st F = (count_all F, F)
  | [] => by simp [count_all_st, count_all]
  | .mk i a t sc b rs :: rest => by
    have ih1 := claim_C9_count_all_pure rs
    have ih2 := claim_C9_count_all_pure rest
    simp [count_all_st, count_all, ih1, ih2]
termination_by F => sizeOf F
decreasing_by
  all_goals simp
  all_goals omega


/-- Python `by_depth.get(k)` with no default: `none` when absent. -/
def dictFind : List (Nat × Nat) → Nat → Option Nat
  | [], _ => none
  | (k, v) :: rest, key => if k = key then some v else dictFind rest key

/-- Python dict equality `a == b`: same key set, equal values; insertion
order is irrelevant. -/
def pyDictEq (a b : List (Nat × Nat)) : Bool :=
  a.all (fun p => dictFind b p.1 == some p.2) && b.all (fun p => dictFind a p.1 == some p.2)

/-- A forest whose every node sits at depth 0: no node has children. -/
def isLeafForest : List CommentNode → Bool
  | [] => true
  | .mk _ _ _ _ _ rs :: rest => rs.isEmpty && isLeafForest rest

/-- C7 counterexample: for the empty forest the claimed mapping
`{0: len(F)} = {0: 0}` differs from the empty dict the code produces, so
the claim fails at `F = []` (its `max_depth` half does hold there). -/
theorem claim_C7_counterexample :
    ¬ ((count_comments_recursive [] 0 freshStats).2.max_depth = 0 ∧
       pyDictEq (count_comments_recursive [] 0 freshStats).2.by_depth
         [(0, ([] : List CommentNode).length)] = true) := by
  intro hcl
  have h2 := hcl.2
  simp [count_comments_recursive, freshStats, pyDictEq, dictFind] at h2

theorem leaf_stats_aux : ∀ (F : List CommentNode) (k : Nat), isLeafForest F = true →
    count_comments_recursive F 0 ⟨0, [(0, k)]⟩ = (F.length, ⟨0, [(0, k + F.length)]⟩)
  | [], k, _ => by simp [count_comments_recursive]
  | .mk i a t sc b rs :: rest, k, h => by
    rw [isLeafForest, Bool.and_eq_true] at h
    have hnil : rs = [] := by simpa using h.1
    subst hnil
    have haux := leaf_stats_aux rest (k + 1) h.2
    simp [count_comments_recursive, dictGetD, dictSet, haux]
    omega
termination_by F _ => sizeOf F
decreasing_by
  all_goals simp
  all_goals omega

/-- C7 (amended): for every NON-EMPTY forest of child-less nodes the
depth statistics report `max_depth = 0` and the mapping `{0: len(F)}`;
the empty forest also reports `max_depth = 0` but an EMPTY mapping
(not `{0: 0}`). -/
theorem claim_C7_leaf_forest_stats (F : List CommentNode) (h : isLeafForest F = true) :
    (count_comments_recursive F 0 freshStats).2.max_depth = 0 ∧
    (count_comments_recursive F 0 freshStats).2.by_depth
      = (if F.isEmpty then [] else [(0, F.length)]) := by
  cases F with
  | nil => exact ⟨by simp [count_comments_recursive, freshStats], by simp [count_comments_recursive, freshStats]⟩
  | cons c rest =>
    obtain ⟨i, a, t, sc, b, rs⟩ := c
    rw [isLeafForest, Bool.and_eq_true] at h
    have hnil : rs = [] := by simpa using h.1
    subst hnil
    have haux := leaf_stats_aux rest 1 h.2
    constructor
    · simp [count_comments_recursive, freshStats, dictGetD, dictSet, haux]
    · simp [count_comments_recursive, freshStats, dictGetD, dictSet, haux]
      omega

/-- C7 witness: a two-leaf forest gives `max_depth = 0` and the mapping
`{0: 2}`. -/
theorem claim_C7_witness :
    isLeafForest [CommentNode.mk (.str "a") .null (.num 0) (.num 0) (.str "") [],
        CommentNode.mk (.str "b") .null (.num 0) (.num 0) (.str "") []] = true ∧
    (count_comments_recursive
        [CommentNode.mk (.str "a") .null (.num 0) (.num 0) (.str "") [],
         CommentNode.mk (.str "b") .null (.num 0) (.num 0) (.str "") []]
        0 freshStats).2.max_depth = 0 ∧
    (count_comments_recursive
        [CommentNode.mk (.str "a") .null (.num 0) (.num 0) (.str "") [],
         CommentNode.mk (.str "b") .null (.num 0) (.num 0) (.str "") []]
        0 freshStats).2.by_depth = [(0, 2)] := by
  have h := claim_C7_leaf_forest_stats
    [CommentNode.mk (.str "a") .null (.num 0) (.num 0) (.str "") [],
     CommentNode.mk (.str "b") .null (.num 0) (.num 0) (.str "") []] rfl
  exact ⟨rfl, h.1, by rw [h.2]; rfl⟩

/-- Sum of a depth-dict's counts. -/
def sumVals : List (Nat × Nat) → Nat
  | [] => 0
  | (_, v) :: rest => v + sumVals rest

/-- Key membership in a depth-dict. -/
def memKey : List (Nat × Nat) → Nat → Bool
  | [], _ => false
  | (k, _) :: rest, key => k == key || memKey rest key

theorem sumVals_dictSet_bump (bd : List (Nat × Nat)) (k : Nat) :
    sumVals (dictSet bd k (dictGetD bd k 0 + 1)) = sumVals bd + 1 := by
  induction bd with
  | nil => simp [dictSet, dictGetD, sumVals]
  | cons p rest ih =>
    obtain ⟨q, v⟩ := p
    by_cases hk : q = k
    · subst hk
      simp [dictSet, dictGetD, sumVals]
      omega
    · simp [dictSet, dictGetD, hk, sumVals, ih]
      omega

theorem memKey_dictSet (bd : List (Nat × Nat)) (k v j : Nat)
    (h : memKey (dictSet bd k v) j = true) : memKey bd j = true ∨ j = k := by
  induction bd with
  | nil =>
    simp [dictSet, memKey] at h
    exact Or.inr h.symm
  | cons p rest ih =>
    obtain ⟨q, w⟩ := p
    by_cases hk : q = k
    · subst hk
      simp [dictSet, memKey] at h ⊢
      rcases h with h | h
      · exact Or.inl (Or.inl h)
      · exact Or.inl (Or.inr h)
    · simp [dictSet, hk, memKey] at h ⊢
      rcases h with h | h
      · exact Or.inl (Or.inl h)
      · rcases ih h with h1 | h1
        · exact Or.inl (Or.inr h1)
        · exact Or.inr h1


theorem ccr_stats_inv : ∀ (F : List CommentNode) (d : Nat) (s : Stats),
    sumVals (count_comments_recursive F d s).2.by_depth
      = sumVals s.by_depth + (count_comments_recursive F d s).1 ∧
    s.max_depth ≤ (count_comments_recursive F d s).2.max_depth ∧
    (∀ k, memKey (count_comments_recursive F d s).2.by_depth k = true →
      memKey s.by_depth k = true ∨ k ≤ (count_comments_recursive F d s).2.max_depth)
  | [], _, _ => by
    simp [count_comments_recursive]
    exact fun k hk => Or.inl hk
  | .mk i a t sc b rs :: rest, d, s => by
    have hbump := sumVals_dictSet_bump s.by_depth d
    by_cases hrs : rs.isEmpty
    · have ih2 := ccr_stats_inv rest d
        ⟨max s.max_depth d, dictSet s.by_depth d (dictGetD s.by_depth d 0 + 1)⟩
      simp only [count_comments_recursive, hrs, if_true, if_pos] at *
      refine ⟨by omega, le_trans (le_max_left _ _) ih2.2.1, fun k hk => ?_⟩
      rcases ih2.2.2 k hk with hmem | hle
      · rcases memKey_dictSet _ _ _ _ hmem with hmem2 | hkd
        · exact Or.inl hmem2
        · subst hkd
          exact Or.inr (le_trans (le_max_right s.max_depth k) ih2.2.1)
      · exact Or.inr hle
    · have ih1 := ccr_stats_inv rs (d + 1)
        ⟨max s.max_depth d, dictSet s.by_depth d (dictGetD s.by_depth d 0 + 1)⟩
      have ih3 := ccr_stats_inv rest d
        (count_comments_recursive rs (d + 1)
          ⟨max s.max_depth d, dictSet s.by_depth d (dictGetD s.by_depth d 0 + 1)⟩).2
      simp only [count_comments_recursive, hrs, if_false, if_neg, Bool.not_eq_true] at *
      refine ⟨by omega,
        le_trans (le_max_left _ _) (le_trans ih1.2.1 ih3.2.1), fun k hk => ?_⟩
      rcases ih3.2.2 k hk with hmem | hle
      · rcases ih1.2.2 k hmem with hmem1 | hle1
        · rcases memKey_dictSet _ _ _ _ hmem1 with hmem2 | hkd
          · exact Or.inl hmem2
          · subst hkd
            exact Or.inr (le_trans (le_max_right s.max_depth k) (le_trans ih1.2.1 ih3.2.1))
        · exact Or.inr (le_trans hle1 ih3.2.1)
      · exact Or.inr hle
termination_by F _ _ => sizeOf F
decreasing_by
  all_goals simp
  all_goals omega

/-- C10: from fresh stats, the per-depth counts of
`count_comments_recursive` sum to the returned total, and every recorded
depth key is at most the reported maximum depth. -/
theorem claim_C10_stats_sum_and_keys (F : List CommentNode) (k : Nat) :
    sumVals (count_comments_recursive F 0 freshStats).2.by_depth
      = (count_comments_recursive F 0 freshStats).1 ∧
    (memKey (count_comments_recursive F 0 freshStats).2.by_depth k = true →
      k ≤ (count_comments_recursive F 0 freshStats).2.max_depth) := by
  have h := ccr_stats_inv F 0 freshStats
  refine ⟨by simpa [freshStats, sumVals] using h.1, fun hk => ?_⟩
  rcases h.2.2 k hk with hmem | hle
  · simp [freshStats, memKey] at hmem
  · exact hle

/-- C10 witness: a root with one nested reply records depths 0 and 1,
the counts sum to the total 2, and key 1 is within `max_depth = 1`. -/
theorem claim_C10_witness :
    memKey (count_comments_recursive
        [CommentNode.mk .null .null .null .null .null
          [CommentNode.mk .null .null .null .null .null []]]
        0 freshStats).2.by_depth 1 = true ∧
    1 ≤ (count_comments_recursive
        [CommentNode.mk .null .null .null .null .null
          [CommentNode.mk .null .null .null .null .null []]]
        0 freshStats).2.max_depth := by
  have hm : memKey (count_comments_recursive
      [CommentNode.mk .null .null .null .null .null
        [CommentNode.mk .null .null .null .null .null []]]
      0 freshStats).2.by_depth 1 = true := by
    simp [count_comments_recursive, freshStats, dictSet, dictGetD, memKey]
  exact ⟨hm, (claim_C10_stats_sum_and_keys
    [CommentNode.mk .null .null .null .null .null
      [CommentNode.mk .null .null .null .null .null []]] 1).2 hm⟩


/-- C8: a request URL that, after the host normalization of the
validator, fails the `https?://old.reddit.com/r/<community>/comments/`
pattern is rejected with the pydantic client-side validation error — for
every possible scraper behavior, so no scrape subprocess (and hence no
network call) is ever consulted. -/
theorem claim_C8_invalid_url_rejected (url : String)
    (h : reddit_url_pattern_match (normalize_url url) = false) :
    ∀ scraper, scrape_endpoint scraper url =
      .validationError "Invalid Reddit URL. Expected format: https://reddit.com/r/subreddit/comments/post_id/..." := by
  intro scraper
  unfold scrape_endpoint validate_reddit_url
  simp [h]

/-- C8 witness: `http://example.com/not-reddit` is rejected whatever the
scraper would have answered. -/
theorem claim_C8_witness :
    reddit_url_pattern_match (normalize_url "http://example.com/not-reddit") = false ∧
    scrape_endpoint (fun v => .error "net") "http://example.com/not-reddit" =
      .validationError "Invalid Reddit URL. Expected format: https://reddit.com/r/subreddit/comments/post_id/..." :=
  ⟨by decide, claim_C8_invalid_url_rejected "http://example.com/not-reddit" (by decide) _⟩

end RedditScraper
